import Mathlib

/-!
Shallow embedding of the `booksever` HTTP proxy (src/index.js, with the two
older upload-handler variants src/unnamed/part_000 and src/unnamed/part_001).

The server is sequential glue code: an upload handler that forwards a
multipart file to the MEGA SDK, extracts a file handle from the SDK response,
caches the handle in an in-memory map with a setTimeout-based eviction, and
returns a proxy download URL; and a download handler that resolves a handle
(cache first, then `client.files`), parses an optional `Range` header with
the regex `bytes=(\d*)-(\d*)`, and streams either a ranged or a full read.

JavaScript `null`/`undefined` string-valued expressions are modelled as
`Option String`, with JS truthiness (`none` and the empty string are falsy).
The MEGA SDK and the filesystem are modelled as environments describing
whether each external call throws and what it returns.
-/

set_option autoImplicit false

namespace BookServer

/-- A JavaScript string-or-nullish value: `none` is `null`/`undefined`. -/
abbrev JsStr := Option String

/-- JS truthiness for string values: `null`, `undefined` and `""` are falsy. -/
def jsTruthy : JsStr → Bool
  | none => false
  | some s => !s.isEmpty

/-- JS `a || b` on string values. -/
def jsOr (a b : JsStr) : JsStr := if jsTruthy a then a else b

/-- JS `a || b` where `a` is a plain string (used for `error.message || '...'`). -/
def jsOrStr (a b : String) : String := if a.isEmpty then b else a

/-- A MEGA file node / SDK upload-response object.  The fields are the ones the
server reads; each may be absent (`none`) since the SDK's response shape is an
external, evolving contract. `size` is `none` when the property is missing. -/
structure MegaFile where
  nodeId : JsStr
  h : JsStr
  nodeID : JsStr
  id : JsStr
  link : JsStr
  name : JsStr
  size : Option Nat
deriving Repr, DecidableEq

/-- Optional chaining `uploadedFile?.link` on a possibly-null object. -/
def optLink : Option MegaFile → JsStr
  | none => none
  | some u => u.link

/-- `src/index.js` line 63: `originalName.replace(/[^a-zA-Z0-9._-]/g, '_')`.
Character class `[a-zA-Z0-9._-]` (ASCII letters, digits, dot, underscore,
hyphen). -/
def isAllowedChar (c : Char) : Bool :=
  c.isAlpha || c.isDigit || c = '.' || c = '_' || c = '-'

/-- The sanitized upload name: every character outside `[a-zA-Z0-9._-]`
is replaced by `'_'`. -/
def sanitize (s : String) : String :=
  ⟨s.data.map (fun c => if isAllowedChar c then c else '_')⟩

/-! ## Range-header parsing

`src/index.js` line 204: `/bytes=(\d*)-(\d*)/.exec(rangeHeader)`.
The regex is unanchored, so `exec` searches for the first position at which
`bytes=` is followed by a (possibly empty) maximal digit run, a `-`, and a
second (possibly empty) maximal digit run. -/

/-- Split a maximal run of ASCII digits off the front of a character list. -/
def takeDigits : List Char → List Char × List Char
  | [] => ([], [])
  | c :: cs =>
    if c.isDigit then
      let (ds, rest) := takeDigits cs
      (c :: ds, rest)
    else ([], c :: cs)

/-- Match `bytes=(\d*)-(\d*)` at the head of the list, returning the two
captured digit groups. -/
def matchRangeAt (cs : List Char) : Option (List Char × List Char) :=
  match cs with
  | 'b' :: 'y' :: 't' :: 'e' :: 's' :: '=' :: rest =>
    let (d1, rest1) := takeDigits rest
    match rest1 with
    | '-' :: rest2 => some (d1, (takeDigits rest2).1)
    | _ => none
  | _ => none

/-- Unanchored regex search: try `matchRangeAt` at every suffix, leftmost
match first, as `RegExp.exec` does. -/
def execRange : List Char → Option (List Char × List Char)
  | [] => none
  | c :: cs =>
    match matchRangeAt (c :: cs) with
    | some r => some r
    | none => execRange cs

/-- `parseInt` on a nonempty digit string (the captured groups are pure
digits, so the result is never `NaN`). -/
def digitsToNat (ds : List Char) : Nat :=
  ds.foldl (fun n c => 10 * n + (c.toNat - '0'.toNat)) 0

/-! ## Server state: the `recentUploads` map and the pending timers

`src/index.js` lines 22-25: `recentUploads` is a `Map` from file handle to
`{ file, expiresAt }`; `UPLOAD_CACHE_TTL_MS` defaults to fifteen minutes.
A `Map` is modelled by its lookup function; the pending `setTimeout`
callbacks are modelled as a list of (fire time, handle to delete) pairs. -/

/-- An entry of `recentUploads`: `{ file: uploadedFile, expiresAt: number }`
(line 109).  `file` keeps the possibly-null `uploadedFile` object. -/
structure CacheEntry where
  file : Option MegaFile
  expiresAt : Nat
deriving Repr, DecidableEq

/-- The `recentUploads` map, by its lookup function (`Map.get`). -/
abbrev CacheMap := String → Option CacheEntry

/-- `Map.set handle entry`. -/
def cacheSet (m : CacheMap) (k : String) (e : CacheEntry) : CacheMap :=
  fun k' => if k' = k then some e else m k'

/-- `Map.delete handle`. -/
def cacheDelete (m : CacheMap) (k : String) : CacheMap :=
  fun k' => if k' = k then none else m k'

/-- `client.files`: a JS object, i.e. an ordered association of keys to
possibly-null file nodes (`Object.values` iterates the values in order). -/
abbrev FilesMap := List (String × Option MegaFile)

/-- JS property read `client.files[fileHandle]`. -/
def filesGet : FilesMap → String → Option (Option MegaFile)
  | [], _ => none
  | (k, v) :: rest, key => if k = key then some v else filesGet rest key

/-- Default of `UPLOAD_CACHE_TTL_MS` (line 25): `15 * 60 * 1000` ms. -/
def UPLOAD_CACHE_TTL_MS : Nat := 15 * 60 * 1000

/-- The mutable server state the handlers touch: the `recentUploads` map and
the pending eviction timers (fire time, handle). -/
structure ServerState where
  recentUploads : CacheMap
  timers : List (Nat × String)

/-- Firing the eviction callback of line 112-115: it only performs
`recentUploads.delete(fileHandle)`. -/
def fireEviction (st : ServerState) (handle : String) : ServerState :=
  { st with recentUploads := cacheDelete st.recentUploads handle }

/-! ## Upload handler (`POST /upload-book`, src/index.js lines 53-138) -/

/-- The request as the upload handler sees it: whether multer attached a
file part, plus the two client-supplied name fields. -/
structure UploadReq where
  hasFile : Bool
  bodyFilename : JsStr
  originalname : JsStr
deriving Repr, DecidableEq

/-- Outcome of the externals inside the `try` block: either some step
(`getMegaClient`, `fs.statSync`, the SDK upload) throws with a message, or
`await uploadTask.complete` resolves to the (possibly null) SDK response. -/
inductive UploadAttempt where
  | throws (msg : String)
  | completes (uploadedFile : Option MegaFile)
deriving Repr, DecidableEq

/-- Environment of one upload request: the attempt outcome and the value of
`client.files` at fallback-search time (`none` = property absent). -/
structure UploadEnv where
  attempt : UploadAttempt
  files : Option FilesMap
deriving Repr, DecidableEq

/-- The JSON response of the upload handler. -/
structure UploadResponse where
  status : Nat
  success : Bool
  error : Option String
  bookUrl : Option String
deriving Repr, DecidableEq

/-- Lines 62-63: `originalName = req.body.filename || req.file.originalname
|| 'book.pdf'; safeName = originalName.replace(...)`. -/
def safeNameOf (req : UploadReq) : String :=
  let originalName := jsOr (jsOr req.bodyFilename req.originalname) (some "book.pdf")
  sanitize (match originalName with | some s => s | none => "book.pdf")

/-- Line 88 / line 95: the `||`-chain `nodeId || h || nodeID || id` on a
file node. -/
def extractChain (u : MegaFile) : JsStr :=
  jsOr (jsOr (jsOr u.nodeId u.h) u.nodeID) u.id

/-- Line 88 with optional chaining on a possibly-null `uploadedFile`. -/
def optExtract : Option MegaFile → JsStr
  | none => none
  | some u => extractChain u

/-- Lines 91-100: the fallback loop over `Object.values(client.files)`:
on the first non-null entry whose `name` equals `safeName`, set
`fileHandle` to that entry's `nodeId || h || nodeID || id` and `break`;
otherwise `fileHandle` keeps its previous (falsy) value. -/
def searchFiles : FilesMap → String → JsStr → JsStr
  | [], _, prev => prev
  | (_, none) :: rest, nm, prev => searchFiles rest nm prev
  | (_, some f) :: rest, nm, prev =>
    if f.name = some nm then extractChain f else searchFiles rest nm prev

/-- Lines 88-100: the whole handle-extraction step of the upload handler. -/
def codeFileHandle (uf : Option MegaFile) (files : Option FilesMap)
    (safeName : String) : JsStr :=
  let fileHandle := optExtract uf
  if !jsTruthy fileHandle then
    match files with
    | some fm => searchFiles fm safeName fileHandle
    | none => fileHandle
  else fileHandle

/-- The upload handler of `src/index.js` (lines 53-138), as a function of the
request, the external environment, the current time, the configured TTL and
the server state.  Returns the response and the new state. -/
def uploadHandler (req : UploadReq) (env : UploadEnv) (now ttl : Nat)
    (st : ServerState) : UploadResponse × ServerState :=
  if !req.hasFile then
    (⟨400, false, some "No file uploaded", none⟩, st)
  else
    match env.attempt with
    | .throws msg => (⟨500, false, some (jsOrStr msg "Upload failed"), none⟩, st)
    | .completes uf =>
      let safeName := safeNameOf req
      let fileHandle := codeFileHandle uf env.files safeName
      if !jsTruthy fileHandle then
        (⟨500, false, some "File uploaded but could not extract handle", none⟩, st)
      else
        let handle := match fileHandle with | some s => s | none => ""
        let entry : CacheEntry := ⟨uf, now + ttl⟩
        let st' : ServerState :=
          ⟨cacheSet st.recentUploads handle entry,
           st.timers ++ [(now + ttl + 1000, handle)]⟩
        (⟨200, true, none, some ("https://booksever-1.onrender.com/download/" ++ handle)⟩, st')

/-! ## Download handler (`GET /download/:fileHandle`, src/index.js lines 145-251) -/

/-- Environment of one download request: whether `getMegaClient` throws,
the value of `client.files`, and whether each of the two ranged
`file.download` call shapes throws synchronously (lines 227 and 231). -/
structure DownloadEnv where
  clientError : Option String
  files : Option FilesMap
  dlRangeArgsThrows : Bool
  dlRangeObjThrows : Bool
deriving Repr, DecidableEq

/-- Which stream the handler ends up piping to the response. -/
inductive StreamChoice where
  | ranged2arg (s e : Int)
  | rangedObj (s e : Int)
  | fullStream
deriving Repr, DecidableEq

/-- The observable download response: status, optional JSON error body
`(success, error)`, the two range-specific headers, and the chosen stream. -/
structure DownloadResponse where
  status : Nat
  body : Option (Bool × String)
  contentRange : Option String
  contentLength : Option Int
  stream : Option StreamChoice
deriving Repr, DecidableEq

/-- Line 163: `Object.values(client.files).find(f => f && (f.nodeId ===
fileHandle || f.h === fileHandle || f.id === fileHandle))`. -/
def findByIdentifier : FilesMap → String → Option MegaFile
  | [], _ => none
  | (_, none) :: rest, handle => findByIdentifier rest handle
  | (_, some f) :: rest, handle =>
    if f.nodeId = some handle ∨ f.h = some handle ∨ f.id = some handle then some f
    else findByIdentifier rest handle

/-- Lines 156-157: `let cached = recentUploads.get(fileHandle) || null;
let file = cached ? cached.file : null;`.  The `expiresAt` field of a hit is
never read. -/
def cachedFileOf (cache : CacheMap) (handle : String) : Option MegaFile :=
  match cache handle with
  | some entry => entry.file
  | none => none

/-- Lines 156-165: resolve the handle — `recentUploads` cache first, then
`client.files[fileHandle]` as a direct key, then a scan of
`Object.values(client.files)` matching `nodeId`/`h`/`id`. -/
def resolveFile (cache : CacheMap) (files : Option FilesMap)
    (handle : String) : Option MegaFile :=
  match cachedFileOf cache handle with
  | some f => some f
  | none =>
    match files with
    | none => none
    | some fm =>
      match filesGet fm handle with
      | some (some f) => some f
      | _ => findByIdentifier fm handle

/-- Line 209: `start = matches[1] ? parseInt(matches[1], 10) : 0`. -/
def rangeStart (d1 : List Char) : Int :=
  if d1.isEmpty then 0 else (digitsToNat d1 : Int)

/-- Line 210: `end = matches[2] ? parseInt(matches[2], 10) : (totalSize - 1)`. -/
def rangeEnd (totalSize : Nat) (d2 : List Char) : Int :=
  if d2.isEmpty then (totalSize : Int) - 1 else (digitsToNat d2 : Int)

/-- Line 220: the template literal `` `bytes ${start}-${end}/${totalSize}` ``. -/
def contentRangeHeader (start endPos : Int) (totalSize : Nat) : String :=
  s!"bytes {start}-{endPos}/{totalSize}"

/-- Lines 223-236: try `file.download(start, end)`, then
`file.download({ start, end })`, then fall back to the full stream
`file.download()`. -/
def selectStream (argsThrow objThrow : Bool) (start endPos : Int) : StreamChoice :=
  if !argsThrow then .ranged2arg start endPos
  else if !objThrow then .rangedObj start endPos
  else .fullStream

/-- Line 172: `Number(file.size) || 0` (a missing `size` gives `NaN`,
which `|| 0` turns into `0`). -/
def totalSizeOf (file : MegaFile) : Nat :=
  match file.size with
  | some n => n
  | none => 0

/-- The download handler of `src/index.js` (lines 145-251). -/
def downloadHandler (fileHandle : String) (rangeHeader : Option String)
    (env : DownloadEnv) (cache : CacheMap) : DownloadResponse :=
  if fileHandle.isEmpty then
    ⟨400, some (false, "File handle required"), none, none, none⟩
  else
    match env.clientError with
    | some msg => ⟨500, some (false, jsOrStr msg "Download failed"), none, none, none⟩
    | none =>
      match resolveFile cache env.files fileHandle with
      | none => ⟨404, some (false, "File not found"), none, none, none⟩
      | some file =>
        let totalSize : Nat := totalSizeOf file
        match rangeHeader with
        | none => ⟨200, none, none, some (totalSize : Int), some .fullStream⟩
        | some hdr =>
          match execRange hdr.data with
          | none => ⟨416, some (false, "Malformed Range header"), none, none, none⟩
          | some (d1, d2) =>
            let start : Int := rangeStart d1
            let endReq : Int := rangeEnd totalSize d2
            if start > endReq ∨ start < 0 then
              ⟨416, some (false, "Requested Range Not Satisfiable"), none, none, none⟩
            else
              let endPos : Int := min endReq ((totalSize : Int) - 1)
              ⟨206, none, some (contentRangeHeader start endPos totalSize),
               some (endPos - start + 1),
               some (selectStream env.dlRangeArgsThrows env.dlRangeObjThrows start endPos)⟩

/-! ## The two older upload-handler variants

`src/unnamed/part_000` lines 86-116 and `src/unnamed/part_001` lines 90-112:
same upload flow, but the success body's `bookUrl` is `uploadedFile.link`
when truthy, else a `https://mega.nz/file/<handle>` link; the handle
preference order differs between the two. -/

/-- part_000 line 90: `uploadedFile?.nodeID || uploadedFile?.h ||
uploadedFile?.id`. -/
def part0Handle : Option MegaFile → JsStr
  | none => none
  | some u => jsOr (jsOr u.nodeID u.h) u.id

/-- part_001 line 94: `uploadedFile?.h || uploadedFile?.nodeID ||
uploadedFile?.id`. -/
def part1Handle : Option MegaFile → JsStr
  | none => none
  | some u => jsOr (jsOr u.h u.nodeID) u.id

/-- part_000 lines 87-99: prefer `uploadedFile.link`, else build
`https://mega.nz/file/<handle>`, else leave `bookUrl` null. -/
def part0BookUrl (uf : Option MegaFile) : JsStr :=
  let fileHandle := part0Handle uf
  if jsTruthy (optLink uf) then optLink uf
  else if jsTruthy fileHandle then
    some ("https://mega.nz/file/" ++ (match fileHandle with | some s => s | none => ""))
  else none

/-- part_001 lines 91-102: same shape as part_000 with the other handle
order. -/
def part1BookUrl (uf : Option MegaFile) : JsStr :=
  let handle := part1Handle uf
  if jsTruthy (optLink uf) then optLink uf
  else if jsTruthy handle then
    some ("https://mega.nz/file/" ++ (match handle with | some s => s | none => ""))
  else none

/-- part_000 lines 105-116: the response once the upload completed. -/
def part0Response (uf : Option MegaFile) : UploadResponse :=
  let bookUrl := part0BookUrl uf
  if jsTruthy bookUrl then ⟨200, true, none, bookUrl⟩
  else ⟨500, false, some "File uploaded but could not generate download link", none⟩

/-- part_001 lines 107-112: the response once the upload completed. -/
def part1Response (uf : Option MegaFile) : UploadResponse :=
  let bookUrl := part1BookUrl uf
  if jsTruthy bookUrl then ⟨200, true, none, bookUrl⟩
  else ⟨500, false, some "File uploaded but could not generate download link", none⟩

/-- The `index.js` upload response for a completed SDK upload, as the other
variants see it: run `uploadHandler` on a request carrying the file, with a
fresh state. -/
def indexResponse (uf : Option MegaFile) (files : Option FilesMap)
    (filename : String) : UploadResponse :=
  (uploadHandler ⟨true, some filename, none⟩ ⟨.completes uf, files⟩ 0
    UPLOAD_CACHE_TTL_MS ⟨fun _ => none, []⟩).1

/-! ## Claim-side (specification) formulation of the handle extraction

Claim C4 describes the extraction declaratively: try the field names in the
order `nodeId`, `h`, `nodeID`, `id`; if none is present, search
`client.files` for an entry named like the sanitized upload name and take
its identifier.  These definitions follow the claim's words; the theorem
compares them with the code's `codeFileHandle`. -/

/-- The first truthy value of a list of JS string values, or `null`. -/
def firstTruthy : List JsStr → JsStr
  | [] => none
  | v :: vs => if jsTruthy v then v else firstTruthy vs

/-- The identifier of the first entry of `client.files` whose `name` equals
the sanitized name, or `null` when there is none. -/
def specSearch : FilesMap → String → JsStr
  | [], _ => none
  | (_, none) :: rest, nm => specSearch rest nm
  | (_, some f) :: rest, nm =>
    if f.name = some nm then extractChain f else specSearch rest nm

/-- Claim C4's description of the whole extraction. -/
def specExtract (uf : Option MegaFile) (files : Option FilesMap)
    (safeName : String) : JsStr :=
  let fields : List JsStr :=
    match uf with
    | some u => [u.nodeId, u.h, u.nodeID, u.id]
    | none => []
  match firstTruthy fields with
  | some v => some v
  | none =>
    match files with
    | some fm => specSearch fm safeName
    | none => none

/-! ## Concrete fixtures used by counterexamples and witnesses -/

/-- A resolved file node of size 10 named `b.pdf`. -/
def sampleFile : MegaFile := ⟨none, none, none, none, none, some "b.pdf", some 10⟩

/-- A cache holding `sampleFile` under the handle `"H"`. -/
def sampleCache : CacheMap :=
  fun k => if k = "H" then some ⟨some sampleFile, 900000⟩ else none

/-- A download environment where the client is connected, `client.files` is
empty, and ranged reads do not throw. -/
def sampleEnv : DownloadEnv := ⟨none, some [], false, false⟩

/-- An SDK upload response exposing only the `h` field. -/
def ufOnlyH : Option MegaFile := some ⟨none, some "ABC", none, none, none, none, none⟩

/-- An SDK upload response with both `nodeID` and `h` present and different. -/
def ufBoth : Option MegaFile := some ⟨none, some "Y", some "X", none, none, none, none⟩

/-! ## Helper lemmas -/

theorem jsTruthy_eq_some {v : JsStr} (h : jsTruthy v = true) : v = some (v.getD "") := by
  cases v with
  | none => simp [jsTruthy] at h
  | some s => rfl

theorem append_isEmpty_false (a s : String) (ha : a.data ≠ []) :
    (a ++ s).isEmpty = false := by
  rw [Bool.eq_false_iff]
  intro h
  have h2 : a ++ s = "" := (String.isEmpty_iff _).1 h
  have h3 : a.data ++ s.data = [] := by
    have h' := congrArg String.data h2
    rw [String.data_append] at h'
    exact h'
  exact ha (List.append_eq_nil.1 h3).1

theorem rangeStart_nonneg (d1 : List Char) : 0 ≤ rangeStart d1 := by
  unfold rangeStart
  split
  · exact le_refl 0
  · exact Int.ofNat_nonneg _

/-- The state and response of a successful upload, in closed form. -/
theorem upload_success_eq (req : UploadReq) (env : UploadEnv) (uf : Option MegaFile)
    (now ttl : Nat) (st : ServerState)
    (hfile : req.hasFile = true) (hatt : env.attempt = .completes uf)
    (htr : jsTruthy (codeFileHandle uf env.files (safeNameOf req)) = true) :
    uploadHandler req env now ttl st =
      (⟨200, true, none, some ("https://booksever-1.onrender.com/download/" ++
          (codeFileHandle uf env.files (safeNameOf req)).getD "")⟩,
       ⟨cacheSet st.recentUploads
          ((codeFileHandle uf env.files (safeNameOf req)).getD "") ⟨uf, now + ttl⟩,
        st.timers ++ [(now + ttl + 1000,
          (codeFileHandle uf env.files (safeNameOf req)).getD "")]⟩) := by
  have hsome := jsTruthy_eq_some htr
  unfold uploadHandler
  rw [hfile, hatt]
  simp only [Bool.not_true, Bool.false_eq_true, if_false, htr]
  rw [hsome]
  rfl

/-- The response of an upload whose extraction found no truthy handle. -/
theorem upload_no_handle_eq (req : UploadReq) (env : UploadEnv) (uf : Option MegaFile)
    (now ttl : Nat) (st : ServerState)
    (hfile : req.hasFile = true) (hatt : env.attempt = .completes uf)
    (htr : jsTruthy (codeFileHandle uf env.files (safeNameOf req)) = false) :
    uploadHandler req env now ttl st =
      (⟨500, false, some "File uploaded but could not extract handle", none⟩, st) := by
  unfold uploadHandler
  rw [hfile, hatt]
  simp [htr]

@[simp] theorem jsTruthy_none : jsTruthy none = false := rfl

/-- `firstTruthy` returns `null` or a truthy value. -/
theorem firstTruthy_none_of_falsy {l : List JsStr}
    (h : jsTruthy (firstTruthy l) = false) : firstTruthy l = none := by
  induction l with
  | nil => rfl
  | cons v vs ih =>
    simp only [firstTruthy] at h ⊢
    by_cases hv : jsTruthy v = true
    · rw [if_pos hv] at h
      exact absurd h (by simp [hv])
    · rw [if_neg hv] at h ⊢
      exact ih h

/-- The `||`-chain of line 88/95 agrees with the claim-side `firstTruthy`
on the four fields: equal whenever truthy, and equi-truthy always. -/
theorem extractChain_firstTruthy (u : MegaFile) :
    (jsTruthy (extractChain u) = true →
      extractChain u = firstTruthy [u.nodeId, u.h, u.nodeID, u.id])
    ∧ jsTruthy (firstTruthy [u.nodeId, u.h, u.nodeID, u.id]) = jsTruthy (extractChain u) := by
  by_cases h1 : jsTruthy u.nodeId <;> by_cases h2 : jsTruthy u.h <;>
    by_cases h3 : jsTruthy u.nodeID <;> by_cases h4 : jsTruthy u.id <;>
    simp_all [extractChain, jsOr, firstTruthy]

/-- The fallback loop (lines 91-100) agrees with the claim-side search, or
finds nothing while the claim-side search also finds nothing. -/
theorem searchFiles_eq (fm : FilesMap) (nm : String) (prev : JsStr) :
    searchFiles fm nm prev = specSearch fm nm ∨
      (searchFiles fm nm prev = prev ∧ specSearch fm nm = none) := by
  induction fm with
  | nil => exact Or.inr ⟨rfl, rfl⟩
  | cons p rest ih =>
    obtain ⟨k, v⟩ := p
    cases v with
    | none => simpa [searchFiles, specSearch] using ih
    | some f =>
      by_cases hn : f.name = some nm
      · simp [searchFiles, specSearch, hn]
      · simpa [searchFiles, specSearch, hn] using ih

/-- Download with a connection error: generic 500. -/
theorem download_clientError_eq (handle : String) (hdr : Option String)
    (env : DownloadEnv) (cache : CacheMap) (msg : String)
    (hne : handle.isEmpty = false) (hcli : env.clientError = some msg) :
    downloadHandler handle hdr env cache =
      ⟨500, some (false, jsOrStr msg "Download failed"), none, none, none⟩ := by
  unfold downloadHandler
  rw [hcli]
  simp [hne]

/-- Download of an unresolvable handle: 404. -/
theorem download_notfound_eq (handle : String) (hdr : Option String)
    (env : DownloadEnv) (cache : CacheMap)
    (hne : handle.isEmpty = false) (hcli : env.clientError = none)
    (hres : resolveFile cache env.files handle = none) :
    downloadHandler handle hdr env cache =
      ⟨404, some (false, "File not found"), none, none, none⟩ := by
  unfold downloadHandler
  rw [hcli, hres]
  simp [hne]

/-- Download of a resolved file without a `Range` header: 200, full stream. -/
theorem download_full_eq (handle : String) (env : DownloadEnv) (cache : CacheMap)
    (file : MegaFile)
    (hne : handle.isEmpty = false) (hcli : env.clientError = none)
    (hres : resolveFile cache env.files handle = some file) :
    downloadHandler handle none env cache =
      ⟨200, none, none, some (totalSizeOf file : Int), some .fullStream⟩ := by
  unfold downloadHandler
  rw [hcli, hres]
  simp [hne]

/-- Download with a `Range` header the regex does not match: 416. -/
theorem download_malformed_eq (handle hdr : String) (env : DownloadEnv)
    (cache : CacheMap) (file : MegaFile)
    (hne : handle.isEmpty = false) (hcli : env.clientError = none)
    (hres : resolveFile cache env.files handle = some file)
    (hexec : execRange hdr.data = none) :
    downloadHandler handle (some hdr) env cache =
      ⟨416, some (false, "Malformed Range header"), none, none, none⟩ := by
  unfold downloadHandler
  rw [hcli, hres]
  simp [hne, hexec]

/-- Download with a matched range whose start exceeds its end: 416. -/
theorem download_unsat_eq (handle hdr : String) (env : DownloadEnv)
    (cache : CacheMap) (file : MegaFile) (d1 d2 : List Char)
    (hne : handle.isEmpty = false) (hcli : env.clientError = none)
    (hres : resolveFile cache env.files handle = some file)
    (hexec : execRange hdr.data = some (d1, d2))
    (hgt : rangeStart d1 > rangeEnd (totalSizeOf file) d2) :
    downloadHandler handle (some hdr) env cache =
      ⟨416, some (false, "Requested Range Not Satisfiable"), none, none, none⟩ := by
  unfold downloadHandler
  rw [hcli, hres]
  simp [hne, hexec, hgt]

/-- Download with a matched, satisfiable range: 206 with the clamped end. -/
theorem download_206_eq (handle hdr : String) (env : DownloadEnv)
    (cache : CacheMap) (file : MegaFile) (d1 d2 : List Char)
    (hne : handle.isEmpty = false) (hcli : env.clientError = none)
    (hres : resolveFile cache env.files handle = some file)
    (hexec : execRange hdr.data = some (d1, d2))
    (hle : rangeStart d1 ≤ rangeEnd (totalSizeOf file) d2) :
    downloadHandler handle (some hdr) env cache =
      ⟨206, none,
       some (contentRangeHeader (rangeStart d1)
         (min (rangeEnd (totalSizeOf file) d2) ((totalSizeOf file : Int) - 1))
         (totalSizeOf file)),
       some (min (rangeEnd (totalSizeOf file) d2) ((totalSizeOf file : Int) - 1)
         - rangeStart d1 + 1),
       some (selectStream env.dlRangeArgsThrows env.dlRangeObjThrows (rangeStart d1)
         (min (rangeEnd (totalSizeOf file) d2) ((totalSizeOf file : Int) - 1)))⟩ := by
  unfold downloadHandler
  rw [hcli, hres]
  have hcond : ¬(rangeStart d1 > rangeEnd (totalSizeOf file) d2 ∨ rangeStart d1 < 0) := by
    rw [not_or]
    exact ⟨not_lt.2 hle, not_lt.2 (rangeStart_nonneg d1)⟩
  simp [hne, hexec, hcond]

/-! ## Claim theorems -/

/-- C10: a `POST /upload-book` request with no file part is rejected with
status 400 and body `{success:false, error:'No file uploaded'}` before any
remote call (the result does not depend on the environment), and the server
state is returned unchanged. -/
theorem c10_no_file_rejected (req : UploadReq) (env : UploadEnv) (now ttl : Nat)
    (st : ServerState) (h : req.hasFile = false) :
    uploadHandler req env now ttl st =
      (⟨400, false, some "No file uploaded", none⟩, st) := by
  unfold uploadHandler
  simp [h]

/-- Witness for C10 at a concrete no-file request (note the environment
would throw, yet the 400 is returned and the state is untouched). -/
theorem c10_no_file_rejected_witness :
    uploadHandler ⟨false, none, none⟩ ⟨.throws "boom", none⟩ 5 7 ⟨fun _ => none, []⟩ =
      (⟨400, false, some "No file uploaded", none⟩, ⟨fun _ => none, []⟩) :=
  c10_no_file_rejected ⟨false, none, none⟩ ⟨.throws "boom", none⟩ 5 7 ⟨fun _ => none, []⟩ rfl

/-- C9: the stored name is the client-supplied name with every character
outside `[a-zA-Z0-9._-]` replaced by `'_'`; consequently every character of
the name used for the upload (and for the `client.files` fallback search)
lies in that set. -/
theorem c9_sanitized_names :
    (∀ s : String, (sanitize s).data =
      s.data.map (fun c => if isAllowedChar c then c else '_'))
    ∧ (∀ (req : UploadReq) (c : Char),
        c ∈ (safeNameOf req).data → isAllowedChar c = true) := by
  refine ⟨fun s => rfl, fun req c hc => ?_⟩
  unfold safeNameOf sanitize at hc
  obtain ⟨a, -, rfl⟩ := List.mem_map.1 hc
  by_cases h : isAllowedChar a = true
  · rw [if_pos h]; exact h
  · rw [if_neg h]; decide

/-- Witness for C9: sanitizing a concrete name, and the allowed-set fact for
the replacement character, obtained from the theorem. -/
theorem c9_sanitized_names_witness :
    (sanitize "my book (1).pdf").data = "my_book__1_.pdf".data
    ∧ isAllowedChar '_' = true :=
  ⟨(c9_sanitized_names.1 "my book (1).pdf").trans (by decide),
   c9_sanitized_names.2 ⟨true, some "a b", none⟩ '_' (by decide)⟩

/-- C3 counterexample: a download of an unknown handle is a failure path
(`success:false`) answered with status 404, not 500 — so not every failure
path of the handlers returns 500. -/
theorem c3_non500_counterexample :
    (downloadHandler "NOPE" none sampleEnv (fun _ => none)).status = 404
    ∧ (downloadHandler "NOPE" none sampleEnv (fun _ => none)).body =
        some (false, "File not found")
    ∧ (uploadHandler ⟨false, none, none⟩ ⟨.throws "x", none⟩ 0 0
        ⟨fun _ => none, []⟩).1.status = 400 := by
  refine ⟨rfl, rfl, rfl⟩

/-- C3 (amended): every exception thrown inside the `try` block of either
handler is handled only by logging and a generic 500 with
`{success:false, error}`; request-validation failures, by contrast, return
400, 404 or 416. -/
theorem c3_exception_paths_500 :
    (∀ (req : UploadReq) (msg : String) (env : UploadEnv) (now ttl : Nat)
      (st : ServerState), req.hasFile = true → env.attempt = .throws msg →
      uploadHandler req env now ttl st =
        (⟨500, false, some (jsOrStr msg "Upload failed"), none⟩, st))
    ∧ (∀ (handle : String) (hdr : Option String) (env : DownloadEnv)
        (cache : CacheMap) (msg : String),
        handle.isEmpty = false → env.clientError = some msg →
        downloadHandler handle hdr env cache =
          ⟨500, some (false, jsOrStr msg "Download failed"), none, none, none⟩) := by
  constructor
  · intro req msg env now ttl st hfile hatt
    unfold uploadHandler
    rw [hfile, hatt]
    simp
  · intro handle hdr env cache msg hne hcli
    exact download_clientError_eq handle hdr env cache msg hne hcli

/-- Witness for the amended C3 at a concrete throwing upload. -/
theorem c3_exception_paths_500_witness :
    uploadHandler ⟨true, none, none⟩ ⟨.throws "quota", none⟩ 1 2 ⟨fun _ => none, []⟩ =
      (⟨500, false, some "quota", none⟩, ⟨fun _ => none, []⟩) := by
  have h := c3_exception_paths_500.1 ⟨true, none, none⟩ "quota" ⟨.throws "quota", none⟩
    1 2 ⟨fun _ => none, []⟩ rfl rfl
  simpa [jsOrStr] using h

/-- C5: a successful upload inserts the handle into `recentUploads` with
`expiresAt = now + TTL`, appends exactly one eviction timer scheduled at
`now + TTL + 1000` for that handle, firing the timer deletes that handle,
the eviction never inserts anything, and the TTL defaults to 15 minutes. -/
theorem c5_cache_insert_evict (req : UploadReq) (env : UploadEnv)
    (uf : Option MegaFile) (now ttl : Nat) (st : ServerState)
    (hfile : req.hasFile = true) (hatt : env.attempt = .completes uf)
    (htr : jsTruthy (codeFileHandle uf env.files (safeNameOf req)) = true) :
    (uploadHandler req env now ttl st).2.recentUploads
        ((codeFileHandle uf env.files (safeNameOf req)).getD "") = some ⟨uf, now + ttl⟩
    ∧ (uploadHandler req env now ttl st).2.timers =
        st.timers ++ [(now + ttl + 1000,
          (codeFileHandle uf env.files (safeNameOf req)).getD "")]
    ∧ (fireEviction (uploadHandler req env now ttl st).2
        ((codeFileHandle uf env.files (safeNameOf req)).getD "")).recentUploads
        ((codeFileHandle uf env.files (safeNameOf req)).getD "") = none
    ∧ (∀ (k : String) (e : CacheEntry),
        (fireEviction (uploadHandler req env now ttl st).2
          ((codeFileHandle uf env.files (safeNameOf req)).getD "")).recentUploads k
            = some e →
        (uploadHandler req env now ttl st).2.recentUploads k = some e)
    ∧ UPLOAD_CACHE_TTL_MS = 15 * 60 * 1000 := by
  rw [upload_success_eq req env uf now ttl st hfile hatt htr]
  refine ⟨by simp [cacheSet], rfl, by simp [fireEviction, cacheDelete], ?_, rfl⟩
  intro k e hk
  simp only [fireEviction, cacheDelete] at hk
  split at hk
  · exact absurd hk (by simp)
  · exact hk

/-- Witness for C5 at a concrete upload: the handle `ABC` is cached with
`expiresAt = 0 + 10`, and firing its timer removes it. -/
theorem c5_cache_insert_evict_witness :
    (uploadHandler ⟨true, some "b.pdf", none⟩ ⟨.completes ufOnlyH, some []⟩ 0 10
        ⟨fun _ => none, []⟩).2.recentUploads "ABC" = some ⟨ufOnlyH, 10⟩
    ∧ UPLOAD_CACHE_TTL_MS = 900000 := by
  have h := c5_cache_insert_evict ⟨true, some "b.pdf", none⟩
    ⟨.completes ufOnlyH, some []⟩ ufOnlyH 0 10 ⟨fun _ => none, []⟩ rfl rfl (by decide)
  have hkey : (codeFileHandle ufOnlyH (some [])
      (safeNameOf ⟨true, some "b.pdf", none⟩)).getD "" = "ABC" := by decide
  refine ⟨?_, h.2.2.2.2.trans (by decide)⟩
  have h1 := h.1
  rw [hkey] at h1
  exact h1

/-- C8: the download handler never consults `expiresAt` — its result only
depends on the cached `file` objects, a cached file is served whatever its
`expiresAt` is (the handler takes no clock at all), and the eviction timer
of an inserted entry fires at `expiresAt + 1000`, so an entry outlives its
nominal TTL by up to 1000 ms. -/
theorem c8_expiry_not_consulted :
    (∀ (c1 c2 : CacheMap),
      (∀ k, Option.map CacheEntry.file (c1 k) = Option.map CacheEntry.file (c2 k)) →
      ∀ (handle : String) (hdr : Option String) (env : DownloadEnv),
        downloadHandler handle hdr env c1 = downloadHandler handle hdr env c2)
    ∧ (∀ (cache : CacheMap) (files : Option FilesMap) (handle : String)
        (f : MegaFile) (exp : Nat),
        cache handle = some ⟨some f, exp⟩ → resolveFile cache files handle = some f)
    ∧ (∀ (req : UploadReq) (env : UploadEnv) (uf : Option MegaFile) (now ttl : Nat)
        (st : ServerState), req.hasFile = true → env.attempt = .completes uf →
        jsTruthy (codeFileHandle uf env.files (safeNameOf req)) = true →
        ∃ e : CacheEntry,
          (uploadHandler req env now ttl st).2.recentUploads
            ((codeFileHandle uf env.files (safeNameOf req)).getD "") = some e
          ∧ (e.expiresAt + 1000, (codeFileHandle uf env.files (safeNameOf req)).getD "")
              ∈ (uploadHandler req env now ttl st).2.timers) := by
  refine ⟨?_, ?_, ?_⟩
  · intro c1 c2 hmap handle hdr env
    have hres : resolveFile c1 env.files handle = resolveFile c2 env.files handle := by
      have hcf : cachedFileOf c1 handle = cachedFileOf c2 handle := by
        have h := hmap handle
        unfold cachedFileOf
        cases h1 : c1 handle <;> cases h2 : c2 handle <;> rw [h1, h2] at h <;>
          simp_all
      unfold resolveFile
      rw [hcf]
    unfold downloadHandler
    rw [hres]
  · intro cache files handle f exp h
    unfold resolveFile cachedFileOf
    rw [h]
  · intro req env uf now ttl st hfile hatt htr
    rw [upload_success_eq req env uf now ttl st hfile hatt htr]
    exact ⟨⟨uf, now + ttl⟩, by simp [cacheSet], by simp⟩

/-- Witness for C8: the sample cache entry, whose `expiresAt` is long past
at any query, still resolves to its file. -/
theorem c8_expiry_not_consulted_witness :
    resolveFile sampleCache (some []) "H" = some sampleFile :=
  c8_expiry_not_consulted.2.1 sampleCache (some []) "H" sampleFile 900000 rfl

/-- C1 counterexample: for the known file of content length 10, the range
`bytes=12-15` lies wholly beyond the content length, yet the handler
responds 206 (with Content-Length `-2`), not 416; and the header `bytes=-`
does not match the `bytes=digits-digits` pattern, yet is accepted with 206
rather than rejected with 416. -/
theorem c1_range_counterexample :
    (downloadHandler "H" (some "bytes=12-15") sampleEnv sampleCache).status = 206
    ∧ (downloadHandler "H" (some "bytes=12-15") sampleEnv sampleCache).contentLength =
        some (-2)
    ∧ (downloadHandler "H" (some "bytes=-") sampleEnv sampleCache).status = 206 := by
  refine ⟨rfl, rfl, rfl⟩

/-- C1 (amended): the handler parses the header by searching for
`bytes=(\d*)-(\d*)` (an empty start defaults to 0, an empty end to
`contentLength - 1`); if no substring matches it responds 416
(`Malformed Range header`), if the parsed start exceeds the parsed end it
responds 416 (`Requested Range Not Satisfiable`), and otherwise — even when
the range lies wholly beyond the content length — it clamps only the end to
`contentLength - 1` and responds 206 with `Content-Range
'bytes start-end/total'` and `Content-Length = end - start + 1` (which is
not positive when the start is at or beyond the content length). -/
theorem c1_range_amended (handle hdr : String) (env : DownloadEnv)
    (cache : CacheMap) (file : MegaFile)
    (hne : handle.isEmpty = false) (hcli : env.clientError = none)
    (hres : resolveFile cache env.files handle = some file) :
    (execRange hdr.data = none →
      downloadHandler handle (some hdr) env cache =
        ⟨416, some (false, "Malformed Range header"), none, none, none⟩)
    ∧ (∀ d1 d2, execRange hdr.data = some (d1, d2) →
        rangeStart d1 > rangeEnd (totalSizeOf file) d2 →
        downloadHandler handle (some hdr) env cache =
          ⟨416, some (false, "Requested Range Not Satisfiable"), none, none, none⟩)
    ∧ (∀ d1 d2, execRange hdr.data = some (d1, d2) →
        rangeStart d1 ≤ rangeEnd (totalSizeOf file) d2 →
        downloadHandler handle (some hdr) env cache =
          ⟨206, none,
           some (contentRangeHeader (rangeStart d1)
             (min (rangeEnd (totalSizeOf file) d2) ((totalSizeOf file : Int) - 1))
             (totalSizeOf file)),
           some (min (rangeEnd (totalSizeOf file) d2) ((totalSizeOf file : Int) - 1)
             - rangeStart d1 + 1),
           some (selectStream env.dlRangeArgsThrows env.dlRangeObjThrows
             (rangeStart d1)
             (min (rangeEnd (totalSizeOf file) d2) ((totalSizeOf file : Int) - 1)))⟩) :=
  ⟨fun hexec => download_malformed_eq handle hdr env cache file hne hcli hres hexec,
   fun d1 d2 hexec hgt =>
     download_unsat_eq handle hdr env cache file d1 d2 hne hcli hres hexec hgt,
   fun d1 d2 hexec hle =>
     download_206_eq handle hdr env cache file d1 d2 hne hcli hres hexec hle⟩

/-- Witness for the amended C1 at the concrete satisfiable range `bytes=2-5`
on the sample file of size 10. -/
theorem c1_range_amended_witness :
    downloadHandler "H" (some "bytes=2-5") sampleEnv sampleCache =
      ⟨206, none, some "bytes 2-5/10", some 4, some (.ranged2arg 2 5)⟩ := by
  have h := (c1_range_amended "H" "bytes=2-5" sampleEnv sampleCache sampleFile
    rfl rfl (by decide)).2.2 ['2'] ['5'] (by decide) (by decide)
  exact h.trans (by decide)

/-- C2: once a range passed validation, the byte stream is obtained by first
attempting `file.download(start, end)`, then `file.download({start, end})`,
and when both throw the handler silently falls back to the full-file stream
while the status is already 206 and the `Content-Range` header is set. -/
theorem c2_ranged_fallback (handle hdr : String) (env : DownloadEnv)
    (cache : CacheMap) (file : MegaFile) (d1 d2 : List Char)
    (hne : handle.isEmpty = false) (hcli : env.clientError = none)
    (hres : resolveFile cache env.files handle = some file)
    (hexec : execRange hdr.data = some (d1, d2))
    (hle : rangeStart d1 ≤ rangeEnd (totalSizeOf file) d2) :
    (downloadHandler handle (some hdr) env cache).status = 206
    ∧ (downloadHandler handle (some hdr) env cache).stream =
        some (selectStream env.dlRangeArgsThrows env.dlRangeObjThrows
          (rangeStart d1)
          (min (rangeEnd (totalSizeOf file) d2) ((totalSizeOf file : Int) - 1)))
    ∧ (env.dlRangeArgsThrows = false →
        (downloadHandler handle (some hdr) env cache).stream =
          some (.ranged2arg (rangeStart d1)
            (min (rangeEnd (totalSizeOf file) d2) ((totalSizeOf file : Int) - 1))))
    ∧ (env.dlRangeArgsThrows = true → env.dlRangeObjThrows = false →
        (downloadHandler handle (some hdr) env cache).stream =
          some (.rangedObj (rangeStart d1)
            (min (rangeEnd (totalSizeOf file) d2) ((totalSizeOf file : Int) - 1))))
    ∧ (env.dlRangeArgsThrows = true → env.dlRangeObjThrows = true →
        (downloadHandler handle (some hdr) env cache).stream = some .fullStream
        ∧ (downloadHandler handle (some hdr) env cache).status = 206
        ∧ (downloadHandler handle (some hdr) env cache).contentRange ≠ none) := by
  rw [download_206_eq handle hdr env cache file d1 d2 hne hcli hres hexec hle]
  refine ⟨rfl, rfl, ?_, ?_, ?_⟩
  · intro h1
    simp [selectStream, h1]
  · intro h1 h2
    simp [selectStream, h1, h2]
  · intro h1 h2
    exact ⟨by simp [selectStream, h1, h2], rfl, by simp⟩

/-- Witness for C2: with both ranged-read shapes throwing, the concrete
request still gets a 206 while the piped stream is the full file. -/
theorem c2_ranged_fallback_witness :
    (downloadHandler "H" (some "bytes=2-5") ⟨none, some [], true, true⟩
        sampleCache).stream = some StreamChoice.fullStream
    ∧ (downloadHandler "H" (some "bytes=2-5") ⟨none, some [], true, true⟩
        sampleCache).status = 206 := by
  have h := (c2_ranged_fallback "H" "bytes=2-5" ⟨none, some [], true, true⟩
    sampleCache sampleFile ['2'] ['5'] rfl rfl (by decide) (by decide)
    (by decide)).2.2.2.2 rfl rfl
  exact ⟨h.1, h.2.1⟩

/-- C6: a download resolves the handle first through the `recentUploads`
cache, then as a direct key of `client.files`, then by scanning the values
of `client.files` for a node whose `nodeId`, `h` or `id` equals the handle;
an unresolvable handle gets a 404 with `{success:false, error:'File not
found'}`, and a resolved file is streamed back in full when no range was
requested. -/
theorem c6_download_resolution :
    (∀ (cache : CacheMap) (files : Option FilesMap) (handle : String)
      (e : CacheEntry) (f : MegaFile),
      cache handle = some e → e.file = some f →
      resolveFile cache files handle = some f)
    ∧ (∀ (cache : CacheMap) (fm : FilesMap) (handle : String) (f : MegaFile),
        cachedFileOf cache handle = none → filesGet fm handle = some (some f) →
        resolveFile cache (some fm) handle = some f)
    ∧ (∀ (cache : CacheMap) (fm : FilesMap) (handle : String),
        cachedFileOf cache handle = none →
        (filesGet fm handle = none ∨ filesGet fm handle = some none) →
        resolveFile cache (some fm) handle = findByIdentifier fm handle)
    ∧ (∀ (fm : FilesMap) (handle : String) (f : MegaFile),
        findByIdentifier fm handle = some f →
        f.nodeId = some handle ∨ f.h = some handle ∨ f.id = some handle)
    ∧ (∀ (cache : CacheMap) (handle : String) (hdr : Option String)
        (env : DownloadEnv),
        handle.isEmpty = false → env.clientError = none →
        resolveFile cache env.files handle = none →
        downloadHandler handle hdr env cache =
          ⟨404, some (false, "File not found"), none, none, none⟩)
    ∧ (∀ (cache : CacheMap) (handle : String) (env : DownloadEnv) (f : MegaFile),
        handle.isEmpty = false → env.clientError = none →
        resolveFile cache env.files handle = some f →
        downloadHandler handle none env cache =
          ⟨200, none, none, some (totalSizeOf f : Int), some .fullStream⟩) := by
  refine ⟨?_, ?_, ?_, ?_, ?_, ?_⟩
  · intro cache files handle e f hce hef
    unfold resolveFile cachedFileOf
    rw [hce]
    simp [hef]
  · intro cache fm handle f hcf hget
    unfold resolveFile
    rw [hcf]
    simp [hget]
  · intro cache fm handle hcf hor
    unfold resolveFile
    rw [hcf]
    rcases hor with h | h <;> simp [h]
  · intro fm handle f hfind
    induction fm with
    | nil => exact absurd hfind (by simp [findByIdentifier])
    | cons p rest ih =>
      obtain ⟨k, v⟩ := p
      cases v with
      | none => exact ih (by simpa [findByIdentifier] using hfind)
      | some g =>
        by_cases hg : g.nodeId = some handle ∨ g.h = some handle ∨ g.id = some handle
        · have : some g = some f := by simpa [findByIdentifier, hg] using hfind
          cases this
          exact hg
        · exact ih (by simpa [findByIdentifier, hg] using hfind)
  · intro cache handle hdr env hne hcli hres
    exact download_notfound_eq handle hdr env cache hne hcli hres
  · intro cache handle env f hne hcli hres
    exact download_full_eq handle env cache f hne hcli hres

/-- Witness for C6: a handle resolved through the direct-key branch of
`client.files`, via the theorem. -/
theorem c6_download_resolution_witness :
    resolveFile (fun _ => none) (some [("K", some sampleFile)]) "K" =
      some sampleFile :=
  c6_download_resolution.2.1 (fun _ => none) [("K", some sampleFile)] "K"
    sampleFile rfl (by decide)

/-- The code's extraction (lines 88-105) refines the claim-side
`specExtract`: equi-truthy in general, and equal whenever a truthy handle
exists. -/
theorem codeFileHandle_spec (uf : Option MegaFile) (files : Option FilesMap)
    (nm : String) :
    jsTruthy (codeFileHandle uf files nm) = jsTruthy (specExtract uf files nm)
    ∧ (jsTruthy (specExtract uf files nm) = true →
        codeFileHandle uf files nm = specExtract uf files nm) := by
  by_cases htr : jsTruthy (optExtract uf) = true
  · cases uf with
    | none => simp [optExtract] at htr
    | some u =>
      have hch := extractChain_firstTruthy u
      have htru : jsTruthy (extractChain u) = true := by
        simpa [optExtract] using htr
      have heq : extractChain u = firstTruthy [u.nodeId, u.h, u.nodeID, u.id] :=
        hch.1 htru
      have hcode : codeFileHandle (some u) files nm = extractChain u := by
        unfold codeFileHandle
        simp [optExtract, htru]
      have hspec : specExtract (some u) files nm =
          firstTruthy [u.nodeId, u.h, u.nodeID, u.id] := by
        unfold specExtract
        have hft : jsTruthy (firstTruthy [u.nodeId, u.h, u.nodeID, u.id]) = true := by
          rw [hch.2]; exact htru
        cases hc : firstTruthy [u.nodeId, u.h, u.nodeID, u.id] with
        | none => rw [hc] at hft; exact absurd hft (by simp)
        | some v => simp [hc]
      rw [hcode, heq, hspec]
      exact ⟨rfl, fun _ => rfl⟩
  · have htr' : jsTruthy (optExtract uf) = false := by
      simpa using htr
    cases files with
    | none =>
      have hcode : codeFileHandle uf none nm = optExtract uf := by
        unfold codeFileHandle
        simp [htr']
      have hspec : specExtract uf none nm = none := by
        unfold specExtract
        cases uf with
        | none => rfl
        | some u =>
          have hft : firstTruthy [u.nodeId, u.h, u.nodeID, u.id] = none := by
            refine firstTruthy_none_of_falsy ?_
            rw [(extractChain_firstTruthy u).2]
            simpa [optExtract] using htr'
          simp [hft]
      rw [hcode, hspec]
      refine ⟨by rw [htr']; rfl, fun h => absurd h (by simp)⟩
    | some fm =>
      have hcode : codeFileHandle uf (some fm) nm =
          searchFiles fm nm (optExtract uf) := by
        unfold codeFileHandle
        simp [htr']
      have hspec : specExtract uf (some fm) nm = specSearch fm nm := by
        unfold specExtract
        cases uf with
        | none => rfl
        | some u =>
          have hft : firstTruthy [u.nodeId, u.h, u.nodeID, u.id] = none := by
            refine firstTruthy_none_of_falsy ?_
            rw [(extractChain_firstTruthy u).2]
            simpa [optExtract] using htr'
          simp [hft]
      rcases searchFiles_eq fm nm (optExtract uf) with hse | ⟨hse, hnone⟩
      · rw [hcode, hspec, hse]
        exact ⟨rfl, fun _ => rfl⟩
      · rw [hcode, hspec, hse, hnone]
        refine ⟨by rw [htr']; rfl, fun h => absurd h (by simp)⟩

/-- C4: the file handle returned by the upload is the first truthy field of
the SDK response among `nodeId`, `h`, `nodeID`, `id`; failing that, the
first `client.files` entry named like the sanitized upload name supplies its
identifier; and when no truthy handle is found the handler answers 500 with
`'File uploaded but could not extract handle'`, while with handle `s` it
answers the success body with the proxy URL ending in `s`. -/
theorem c4_handle_extraction :
    (∀ (uf : Option MegaFile) (files : Option FilesMap) (nm : String),
      jsTruthy (codeFileHandle uf files nm) = jsTruthy (specExtract uf files nm)
      ∧ (jsTruthy (specExtract uf files nm) = true →
          codeFileHandle uf files nm = specExtract uf files nm))
    ∧ (∀ (req : UploadReq) (env : UploadEnv) (uf : Option MegaFile)
        (now ttl : Nat) (st : ServerState),
        req.hasFile = true → env.attempt = .completes uf →
        (jsTruthy (specExtract uf env.files (safeNameOf req)) = false →
          (uploadHandler req env now ttl st).1 =
            ⟨500, false, some "File uploaded but could not extract handle", none⟩)
        ∧ (∀ s : String, specExtract uf env.files (safeNameOf req) = some s →
            s.isEmpty = false →
            (uploadHandler req env now ttl st).1 =
              ⟨200, true, none,
               some ("https://booksever-1.onrender.com/download/" ++ s)⟩)) := by
  refine ⟨fun uf files nm => codeFileHandle_spec uf files nm, ?_⟩
  intro req env uf now ttl st hfile hatt
  have hs := codeFileHandle_spec uf env.files (safeNameOf req)
  constructor
  · intro hfalse
    have hcf : jsTruthy (codeFileHandle uf env.files (safeNameOf req)) = false := by
      rw [hs.1, hfalse]
    rw [upload_no_handle_eq req env uf now ttl st hfile hatt hcf]
  · intro s hspec hsne
    have htrue : jsTruthy (specExtract uf env.files (safeNameOf req)) = true := by
      rw [hspec]
      simp [jsTruthy, hsne]
    have hcode : codeFileHandle uf env.files (safeNameOf req) = some s :=
      (hs.2 htrue).trans hspec
    have htr : jsTruthy (codeFileHandle uf env.files (safeNameOf req)) = true := by
      rw [hs.1]; exact htrue
    rw [upload_success_eq req env uf now ttl st hfile hatt htr]
    simp [hcode]

/-- Witness for C4 at a concrete upload whose SDK response exposes only
`h = "ABC"`. -/
theorem c4_handle_extraction_witness :
    (uploadHandler ⟨true, some "b.pdf", none⟩ ⟨.completes ufOnlyH, some []⟩ 3 4
        ⟨fun _ => none, []⟩).1 =
      ⟨200, true, none, some "https://booksever-1.onrender.com/download/ABC"⟩ := by
  have h := (c4_handle_extraction.2 ⟨true, some "b.pdf", none⟩
    ⟨.completes ufOnlyH, some []⟩ ufOnlyH 3 4 ⟨fun _ => none, []⟩ rfl rfl).2
    "ABC" (by decide) (by decide)
  exact h.trans (by decide)

/-- C7 counterexample: for the same successful SDK response (only `h =
"ABC"` present) every variant returns a success body, but the `bookUrl`
values differ — index.js returns the proxy URL while part_000 returns a
mega.nz link; and for a response carrying both `nodeID = "X"` and
`h = "Y"`, part_000 and part_001 even differ from each other. -/
theorem c7_variant_counterexample :
    (indexResponse ufOnlyH (some []) "book.pdf").success = true
    ∧ (part0Response ufOnlyH).success = true
    ∧ (part1Response ufOnlyH).success = true
    ∧ (indexResponse ufOnlyH (some []) "book.pdf").bookUrl ≠
        (part0Response ufOnlyH).bookUrl
    ∧ (part0Response ufBoth).bookUrl ≠ (part1Response ufBoth).bookUrl := by
  refine ⟨rfl, rfl, rfl, by decide, by decide⟩

/-- C7 (amended): the three upload-handler variants all return
`{success:true, bookUrl}` for a successful SDK response with a truthy
handle, but the `bookUrl` values are not the same across variants:
index.js returns the proxy URL `https://booksever-1.onrender.com/download/
<handle>`, while part_000 and part_001 return `uploadedFile.link` when
present and otherwise `https://mega.nz/file/<handle>` (with handle
preference `nodeID,h,id` resp. `h,nodeID,id`, so they agree when `h` is the
only handle field but index.js always differs from them). -/
theorem c7_variant_amended (u : MegaFile) (files : Option FilesMap) (nm : String)
    (hl : u.link = none) (hn : u.nodeId = none) (hN : u.nodeID = none)
    (hi : u.id = none) (hh : jsTruthy u.h = true) :
    indexResponse (some u) files nm =
      ⟨200, true, none,
       some ("https://booksever-1.onrender.com/download/" ++ u.h.getD "")⟩
    ∧ part0Response (some u) =
      ⟨200, true, none, some ("https://mega.nz/file/" ++ u.h.getD "")⟩
    ∧ part1Response (some u) = part0Response (some u)
    ∧ (indexResponse (some u) files nm).bookUrl ≠ (part0Response (some u)).bookUrl := by
  obtain ⟨s, hs⟩ : ∃ s, u.h = some s := by
    cases hu : u.h with
    | none => rw [hu] at hh; exact absurd hh (by simp)
    | some s => exact ⟨s, rfl⟩
  have hst : s.isEmpty = false := by
    rw [hs] at hh
    simpa [jsTruthy] using hh
  have hgd : u.h.getD "" = s := by rw [hs]; rfl
  have hne0 : ("https://mega.nz/file/" ++ s).isEmpty = false :=
    append_isEmpty_false _ s (by decide)
  have hchain : ∀ (nm' : String) (files' : Option FilesMap),
      codeFileHandle (some u) files' nm' = some s := by
    intro nm' files'
    unfold codeFileHandle optExtract extractChain
    simp [hn, hN, hi, hs, jsOr, jsTruthy, hst]
  have hidx : indexResponse (some u) files nm =
      ⟨200, true, none,
       some ("https://booksever-1.onrender.com/download/" ++ s)⟩ := by
    unfold indexResponse
    rw [upload_success_eq _ _ (some u) _ _ _ rfl rfl
      (by rw [hchain]; simp [jsTruthy, hst])]
    simp [hchain]
  have hp0 : part0Response (some u) =
      ⟨200, true, none, some ("https://mega.nz/file/" ++ s)⟩ := by
    unfold part0Response part0BookUrl part0Handle optLink
    simp [hl, hN, hi, hs, jsOr, jsTruthy, hst, hne0]
  have hp1 : part1Response (some u) =
      ⟨200, true, none, some ("https://mega.nz/file/" ++ s)⟩ := by
    unfold part1Response part1BookUrl part1Handle optLink
    simp [hl, hN, hi, hs, jsOr, jsTruthy, hst, hne0]
  refine ⟨by rw [hgd]; exact hidx, by rw [hgd]; exact hp0,
    by rw [hp1, hp0], ?_⟩
  rw [hidx, hp0]
  intro hc
  have hc2 : "https://booksever-1.onrender.com/download/" ++ s =
      "https://mega.nz/file/" ++ s := by
    simpa using hc
  have hd := congrArg String.data hc2
  rw [String.data_append, String.data_append] at hd
  have hlit := List.append_cancel_right hd
  exact absurd hlit (by decide)

/-- Witness for the amended C7 at the concrete response with `h = "ABC"`. -/
theorem c7_variant_amended_witness :
    part0Response ufOnlyH = ⟨200, true, none, some "https://mega.nz/file/ABC"⟩
    ∧ part1Response ufOnlyH = part0Response ufOnlyH := by
  have h := c7_variant_amended ⟨none, some "ABC", none, none, none, none, none⟩
    (some []) "book.pdf" rfl rfl rfl rfl (by decide)
  exact ⟨h.2.1.trans (by decide), h.2.2.1⟩

end BookServer
